import Mathlib

/-!
Shallow embedding of the position/order lifecycle and strategy orchestration
of pyalgotrade (src/pyalgotrade/strategy.py) together with the retry helper of
the optimizer worker (src/pyalgotrade/optimizer/worker.py), and proofs about
the claims of the specification.

Orders and positions are mutable shared Python objects; here object identity
is a natural-number id and the object heap is an association list carried in
the `Strategy` record.  The broker module (pyalgotrade/broker.py) and the
utils module are not part of the sources in scope, so the order state machine,
`placeOrder`, `cancel`, the `ExecuteIfFilled` conditional wrapper and
`get_change_percentage` are modelled from the specification; everything else
is translated from strategy.py / worker.py.
-/

namespace PyAlgoTrade

/-- Modelled from the spec: the broker module is not under src/.  Order states
per spec section 3: Created, Accepted, Filled, Canceled; Filled and Canceled
are terminal. -/
inductive OrderState
  | Created
  | Accepted
  | Filled
  | Canceled
deriving DecidableEq

/-- Modelled from the spec: order actions BUY, SELL, SELL_SHORT. -/
inductive OrderAction
  | BUY
  | SELL
  | SELL_SHORT
deriving DecidableEq

/-- Modelled from the spec: execution info carries the realized price and the
commission charged, present only once the order is Filled. -/
structure ExecutionInfo where
  price : Rat
  commission : Rat
deriving DecidableEq

/-- Modelled from the spec: an order record.  `gate` models the
`ExecuteIfFilled` conditional wrapper: `gate = some oid` means the order is
gated on order `oid` having filled (spec section 3, Conditional wrapper); the
wrapper is transparent, so a wrapped order is just an order with the gate
field set. -/
structure Order where
  action : OrderAction
  instrument : Nat
  quantity : Nat
  goodTillCanceled : Bool
  useClosingPrice : Bool
  state : OrderState
  executionInfo : Option ExecutionInfo
  gate : Option Nat
deriving DecidableEq

/-- Order.isFilled query. -/
def Order.isFilled (o : Order) : Bool :=
  match o.state with
  | OrderState.Filled => true
  | _ => false

/-- Order.isCanceled query. -/
def Order.isCanceled (o : Order) : Bool :=
  match o.state with
  | OrderState.Canceled => true
  | _ => false

/-- Order.isAccepted query. -/
def Order.isAccepted (o : Order) : Bool :=
  match o.state with
  | OrderState.Accepted => true
  | _ => false

/-- Modelled from the spec: `cancel()` transitions Created/Accepted to
Canceled and is illegal (here: a no-op) once the order is in a terminal
state (spec section 4.1). -/
def Order.cancel (o : Order) : Order :=
  match o.state with
  | OrderState.Created => { o with state := OrderState.Canceled }
  | OrderState.Accepted => { o with state := OrderState.Canceled }
  | _ => o

/-- Direction of a position: the source has two subclasses, LongPosition and
ShortPosition, that differ only in the side of each order and the sign
convention of the profit computations. -/
inductive Direction
  | long
  | short
deriving DecidableEq

/-- Position record (class Position of strategy.py): one entry order id, an
optional exit order id, the exit-on-session-close flag, and the direction
tag selecting the Long/Short variant. -/
structure Position where
  entryOrder : Nat
  exitOrder : Option Nat
  exitOnSessionClose : Bool
  dir : Direction
deriving DecidableEq

/-- A bar for one instrument; only the session-close flag is relevant to the
code in scope. -/
structure Bar where
  sessionClose : Bool
deriving DecidableEq

/-- A batch of bars: a timestamp plus a per-instrument bar table
(bars.getBar(instrument) raises KeyError on a missing instrument, modelled
as an Option-valued lookup). -/
structure Bars where
  dateTime : Nat
  bars : List (Nat × Bar)
deriving DecidableEq

/-- Bars.getBar lookup. -/
def Bars.getBar (bs : Bars) (instrument : Nat) : Option Bar :=
  bs.bars.lookup instrument

/-- Replace the value stored under key `k` (no change if `k` is absent). -/
def updateAssoc {α : Type} (l : List (Nat × α)) (k : Nat) (v : α) : List (Nat × α) :=
  match l with
  | [] => []
  | (k0, v0) :: rest =>
    if k0 = k then (k, v) :: rest else (k0, v0) :: updateAssoc rest k v

/-- Python dict assignment `d[k] = v`: replace if present, append otherwise. -/
def insertAssoc {α : Type} (l : List (Nat × α)) (k : Nat) (v : α) : List (Nat × α) :=
  if (l.lookup k).isSome then updateAssoc l k v else l ++ [(k, v)]

/-- Python dict deletion `del d[k]` with a swallowed KeyError: drop every
entry stored under `k`. -/
def deleteAssoc {α : Type} (l : List (Nat × α)) (k : Nat) : List (Nat × α) :=
  l.filter (fun e => !(e.1 == k))

/-- The orchestrator state (class Strategy of strategy.py, plus the order
heap shared with the broker).  `orders` is the heap of order objects keyed by
id, `placedOrders` the ids handed to the broker via placeOrder, `positions`
the heap of position objects keyed by id. -/
structure Strategy where
  orders : List (Nat × Order)
  nextOrderId : Nat
  placedOrders : List Nat
  positions : List (Nat × Position)
  activePositions : List Nat
  orderToPosition : List (Nat × Nat)
  currentDateTime : Option Nat
deriving DecidableEq

/-- Dereference an order id in the heap. -/
def Strategy.lookupOrder (s : Strategy) (oid : Nat) : Option Order :=
  s.orders.lookup oid

/-- Overwrite the order stored under `oid`. -/
def Strategy.setOrder (s : Strategy) (oid : Nat) (o : Order) : Strategy :=
  { s with orders := updateAssoc s.orders oid o }

/-- Strategy.__init__: empty registries, no current datetime (the broker's
cash balance plays no role in the code in scope). -/
def initialStrategy : Strategy :=
  { orders := []
    nextOrderId := 0
    placedOrders := []
    positions := []
    activePositions := []
    orderToPosition := []
    currentDateTime := none }

/-- Strategy.getCurrentDateTime. -/
def Strategy.getCurrentDateTime (s : Strategy) : Option Nat :=
  s.currentDateTime

/-- Modelled from the spec: `broker.MarketOrder(action, instrument, quantity,
goodTillCanceled, useClosingPrice)`; a fresh order starts in the Created
state with no execution info. -/
def mkMarketOrder (action : OrderAction) (instrument quantity : Nat)
    (goodTillCanceled useClosingPrice : Bool) (gate : Option Nat) : Order :=
  { action := action
    instrument := instrument
    quantity := quantity
    goodTillCanceled := goodTillCanceled
    useClosingPrice := useClosingPrice
    state := OrderState.Created
    executionInfo := none
    gate := gate }

/-- Modelled from the spec: `broker.placeOrder` accepts the order
immediately (spec section 6), so the order becomes Accepted and is recorded
with the broker; the actual fill is decided later, during settlement. -/
def Strategy.placeOrder (s : Strategy) (oid : Nat) : Strategy :=
  match s.lookupOrder oid with
  | none => s
  | some o =>
    let s1 := s.setOrder oid { o with state := OrderState.Accepted }
    { s1 with placedOrders := s1.placedOrders ++ [oid] }

/-- Allocate a fresh market order on the heap and place it with the broker;
returns the new order id.  This is the `broker.MarketOrder(...)` followed by
`broker_.placeOrder(...)` sequence used throughout strategy.py. -/
def Strategy.newPlacedOrder (s : Strategy) (action : OrderAction)
    (instrument quantity : Nat) (goodTillCanceled useClosingPrice : Bool)
    (gate : Option Nat) : Nat × Strategy :=
  let oid := s.nextOrderId
  let o := mkMarketOrder action instrument quantity goodTillCanceled useClosingPrice gate
  let s1 := { s with orders := s.orders ++ [(oid, o)], nextOrderId := oid + 1 }
  (oid, s1.placeOrder oid)

/-- The action of the exit order of each variant: LongPosition exits with
SELL, ShortPosition exits with BUY. -/
def exitAction : Direction → OrderAction
  | Direction.long => OrderAction.SELL
  | Direction.short => OrderAction.BUY

/-- Modelled from the spec: the utils module is not under src/; per spec, a
generic percentage-change utility (the exact contract is left open by the
spec; the value is irrelevant to every claim below). -/
def get_change_percentage (actual prev : Rat) : Rat :=
  (actual - prev) / prev

/-- LongPosition.getResultImpl / ShortPosition.getResultImpl: the percentage
change oriented by direction, computed from the execution infos of the two
orders.  A dangling id or a missing execution info has no counterpart in the
source (which holds the objects themselves) and is reported as an error. -/
def Position.getResultImpl (p : Position) (s : Strategy) : Except String Rat :=
  match p.exitOrder with
  | none => Except.error "no exit order"
  | some xid =>
    match s.lookupOrder p.entryOrder, s.lookupOrder xid with
    | some eo, some xo =>
      match eo.executionInfo, xo.executionInfo with
      | some ei, some xi =>
        match p.dir with
        | Direction.long => Except.ok (get_change_percentage xi.price ei.price)
        | Direction.short => Except.ok (get_change_percentage ei.price xi.price)
      | _, _ => Except.error "no execution info"
    | _, _ => Except.error "dangling order reference"

/-- LongPosition.getNetProfitImpl / ShortPosition.getNetProfitImpl:
Long: exit price minus entry price minus both commissions;
Short: entry price minus exit price minus both commissions. -/
def Position.getNetProfitImpl (p : Position) (s : Strategy) : Except String Rat :=
  match p.exitOrder with
  | none => Except.error "no exit order"
  | some xid =>
    match s.lookupOrder p.entryOrder, s.lookupOrder xid with
    | some eo, some xo =>
      match eo.executionInfo, xo.executionInfo with
      | some ei, some xi =>
        match p.dir with
        | Direction.long =>
          Except.ok (xi.price - ei.price - ei.commission - xi.commission)
        | Direction.short =>
          Except.ok (ei.price - xi.price - ei.commission - xi.commission)
      | _, _ => Except.error "no execution info"
    | _, _ => Except.error "dangling order reference"

/-- Position.getResult: raise "Position not opened yet" unless the entry
order is filled, then "Position not closed yet" unless the exit order exists
and is filled, then delegate to the direction-specific implementation. -/
def Position.getResult (p : Position) (s : Strategy) : Except String Rat :=
  match s.lookupOrder p.entryOrder with
  | none => Except.error "dangling order reference"
  | some eo =>
    if eo.isFilled = false then Except.error "Position not opened yet"
    else
      match p.exitOrder with
      | none => Except.error "Position not closed yet"
      | some xid =>
        match s.lookupOrder xid with
        | none => Except.error "dangling order reference"
        | some xo =>
          if xo.isFilled = false then Except.error "Position not closed yet"
          else p.getResultImpl s

/-- Position.getNetProfit: same guards as Position.getResult, then delegate
to the direction-specific net-profit implementation. -/
def Position.getNetProfit (p : Position) (s : Strategy) : Except String Rat :=
  match s.lookupOrder p.entryOrder with
  | none => Except.error "dangling order reference"
  | some eo =>
    if eo.isFilled = false then Except.error "Position not opened yet"
    else
      match p.exitOrder with
      | none => Except.error "Position not closed yet"
      | some xid =>
        match s.lookupOrder xid with
        | none => Except.error "dangling order reference"
        | some xo =>
          if xo.isFilled = false then Except.error "Position not closed yet"
          else p.getNetProfitImpl s

/-- LongPosition.placeExitOnSessionCloseOrder /
ShortPosition.placeExitOnSessionCloseOrder: assert that no exit order exists,
create the opposite-direction market order flagged to use the closing price,
wrap it as conditional on the entry order (`ExecuteIfFilled`), place it, set
it as the exit order, and return it.  `none` stands for the failing assert
or for a dangling entry-order id (the source holds the object itself). -/
def Position.placeExitOnSessionCloseOrder (p : Position) (s : Strategy) :
    Option (Nat × Position × Strategy) :=
  if p.exitOrder.isSome then none
  else
    match s.lookupOrder p.entryOrder with
    | none => none
    | some eo =>
      let r := s.newPlacedOrder (exitAction p.dir) eo.instrument
        eo.quantity false true (some p.entryOrder)
      some (r.1, { p with exitOrder := some r.1 }, r.2)

/-- Position.checkExitOnSessionClose: when the exit-on-session-close flag is
set, no exit order exists, and the instrument's bar in this batch has the
session-close flag, place the session-close exit order and return it;
a missing instrument (KeyError in the source) is swallowed and nothing is
placed.  The `assert(self.getEntryOrder() != None)` of the source holds by
construction here, since `entryOrder` is not optional. -/
def Position.checkExitOnSessionClose (p : Position) (bs : Bars) (s : Strategy) :
    Option Nat × Position × Strategy :=
  match s.lookupOrder p.entryOrder with
  | none => (none, p, s)
  | some eo =>
    if p.exitOnSessionClose && p.exitOrder.isNone then
      match bs.getBar eo.instrument with
      | none => (none, p, s)
      | some bar =>
        if bar.sessionClose then
          match p.placeExitOnSessionCloseOrder s with
          | some (oid, p1, s1) => (some oid, p1, s1)
          | none => (none, p, s)
        else (none, p, s)
    else (none, p, s)

/-- Body of LongPosition.closeImpl / ShortPosition.closeImpl after the
assert: place the opposite-direction market order and set it as the exit
order. -/
def Position.closeNow (p : Position) (s : Strategy) :
    Except String (Position × Strategy) :=
  match s.lookupOrder p.entryOrder with
  | none => Except.error "dangling order reference"
  | some eo =>
    let r := s.newPlacedOrder (exitAction p.dir) eo.instrument
      eo.quantity false false none
    Except.ok ({ p with exitOrder := some r.1 }, r.2)

/-- LongPosition.closeImpl / ShortPosition.closeImpl:
`assert(self.getExitOrder() == None or self.getExitOrder().isCanceled())`,
then place the opposite-direction exit order. -/
def Position.closeImpl (p : Position) (s : Strategy) :
    Except String (Position × Strategy) :=
  match p.exitOrder with
  | none => p.closeNow s
  | some xid =>
    match s.lookupOrder xid with
    | none => Except.error "dangling order reference"
    | some xo =>
      if xo.isCanceled then p.closeNow s
      else Except.error "AssertionError"

/-- Position.close delegates to the direction-specific closeImpl. -/
def Position.close (p : Position) (s : Strategy) :
    Except String (Position × Strategy) :=
  p.closeImpl s

/-- Strategy.__registerActivePosition: append the position to the active list
when absent, and index its entry order and (when present) its exit order. -/
def Strategy.registerActivePosition (s : Strategy) (pid : Nat) : Strategy :=
  match s.positions.lookup pid with
  | none => s
  | some p =>
    let s1 :=
      if pid ∈ s.activePositions then s
      else { s with activePositions := s.activePositions ++ [pid] }
    let s2 := { s1 with
      orderToPosition := insertAssoc s1.orderToPosition p.entryOrder pid }
    match p.exitOrder with
    | some xid =>
      { s2 with orderToPosition := insertAssoc s2.orderToPosition xid pid }
    | none => s2

/-- Strategy.__unregisterActivePosition: remove the position from the active
list (a ValueError when absent, as with Python's list.remove) and delete its
entry and exit orders from the order-to-position index (KeyError swallowed). -/
def Strategy.unregisterActivePosition (s : Strategy) (pid : Nat) :
    Except String Strategy :=
  if pid ∈ s.activePositions then
    match s.positions.lookup pid with
    | none => Except.error "dangling position reference"
    | some p =>
      let m1 := deleteAssoc s.orderToPosition p.entryOrder
      let m2 :=
        match p.exitOrder with
        | some xid => deleteAssoc m1 xid
        | none => m1
      Except.ok { s with
        activePositions := s.activePositions.erase pid
        orderToPosition := m2 }
  else Except.error "ValueError"

/-- Tail of Strategy.exitPosition after its early-return guard: if the entry
order is filled, close the position and re-register it (indexing the new
exit order); otherwise cancel the entry order. -/
def Strategy.exitPositionProceed (s : Strategy) (pid : Nat) (p : Position) :
    Except String Strategy :=
  match s.lookupOrder p.entryOrder with
  | none => Except.error "dangling order reference"
  | some eo =>
    if eo.isFilled then
      match p.close s with
      | Except.error e => Except.error e
      | Except.ok (p1, s1) =>
        let s2 := { s1 with positions := updateAssoc s1.positions pid p1 }
        Except.ok (s2.registerActivePosition pid)
    else
      Except.ok (s.setOrder p.entryOrder eo.cancel)

/-- Strategy.exitPosition: a no-op when an exit order already exists and is
Filled or Accepted; otherwise close (entry filled) or cancel the entry. -/
def Strategy.exitPosition (s : Strategy) (pid : Nat) : Except String Strategy :=
  match s.positions.lookup pid with
  | none => Except.error "dangling position reference"
  | some p =>
    match p.exitOrder with
    | some xid =>
      match s.lookupOrder xid with
      | none => Except.error "dangling order reference"
      | some xo =>
        if xo.isFilled || xo.isAccepted then Except.ok s
        else s.exitPositionProceed pid p
    | none => s.exitPositionProceed pid p

/-- One step of the order-executed notification dispatch, as observed from
the outside: the unregistration of a position and the user hooks, in the
order the source performs them. -/
inductive DispatchStep
  | unregistered (pid : Nat)
  | onEnterOk (pid : Nat)
  | onEnterCanceled (pid : Nat)
  | onExitOk (pid : Nat)
  | onExitCanceled (pid : Nat)
deriving DecidableEq

/-- Strategy.__onOrderUpdate: look the notified order up in the
order-to-position index (KeyError on a miss), then dispatch on whether it is
the position's entry or exit order and on its terminal state, unregistering
the position before invoking the corresponding hook; an indexed order that
is neither entry nor exit of its position hits `assert(False)`. -/
def Strategy.onOrderUpdate (s : Strategy) (oid : Nat) :
    Except String (Strategy × List DispatchStep) :=
  match s.orderToPosition.lookup oid with
  | none => Except.error "KeyError"
  | some pid =>
    match s.positions.lookup pid with
    | none => Except.error "dangling position reference"
    | some p =>
      match s.lookupOrder oid with
      | none => Except.error "dangling order reference"
      | some o =>
        if p.entryOrder = oid then
          if o.isFilled then Except.ok (s, [DispatchStep.onEnterOk pid])
          else if o.isCanceled then
            match s.unregisterActivePosition pid with
            | Except.error e => Except.error e
            | Except.ok s1 =>
              Except.ok (s1, [DispatchStep.unregistered pid,
                DispatchStep.onEnterCanceled pid])
          else Except.ok (s, [])
        else if p.exitOrder = some oid then
          if o.isFilled then
            match s.unregisterActivePosition pid with
            | Except.error e => Except.error e
            | Except.ok s1 =>
              Except.ok (s1, [DispatchStep.unregistered pid,
                DispatchStep.onExitOk pid])
          else if o.isCanceled then
            match s.unregisterActivePosition pid with
            | Except.error e => Except.error e
            | Except.ok s1 =>
              Except.ok (s1, [DispatchStep.unregistered pid,
                DispatchStep.onExitCanceled pid])
          else Except.ok (s, [])
        else Except.error "AssertionError"

/-- Strategy.__checkExitOnSessionClose body: walk the active positions,
attempt checkExitOnSessionClose on each, and index any order produced
(`self.__orderToPosition[order] = position`).  A position id missing from
the heap has no counterpart in the source (the list holds the objects) and
is skipped. -/
def Strategy.checkExitOnSessionCloseLoop (bs : Bars) :
    Strategy → List Nat → Strategy
  | s, [] => s
  | s, pid :: rest =>
    match s.positions.lookup pid with
    | none => Strategy.checkExitOnSessionCloseLoop bs s rest
    | some p =>
      let r := p.checkExitOnSessionClose bs s
      let s2 := { r.2.2 with positions := updateAssoc r.2.2.positions pid r.2.1 }
      let s3 :=
        match r.1 with
        | some oid =>
          { s2 with orderToPosition := insertAssoc s2.orderToPosition oid pid }
        | none => s2
      Strategy.checkExitOnSessionCloseLoop bs s3 rest

/-- Strategy.__checkExitOnSessionClose: iterate over the active positions. -/
def Strategy.checkExitOnSessionCloseAll (s : Strategy) (bs : Bars) : Strategy :=
  Strategy.checkExitOnSessionCloseLoop bs s s.activePositions

/-- The externally supplied behaviour run() interacts with: the user's
overridden hooks and the broker's settlement step.  Each is an arbitrary
state transformer; none of them can write the private current-datetime field
through the public surface, which is expressed as a hypothesis where a claim
needs it. -/
structure RunHooks where
  onStart : Strategy → Strategy
  brokerOnBars : Strategy → Bars → Strategy
  onBars : Strategy → Bars → Strategy
  onFinish : Strategy → Bars → Strategy

/-- Observable events of one run() call; the Nat is the index of the batch
in the feed. -/
inductive RunEvent
  | onStartCalled
  | setCurrentDateTime (i : Nat)
  | checkExitOnSessionCloseStep (i : Nat)
  | brokerOnBars (i : Nat)
  | onBarsCalled (i : Nat)
  | onFinishCalled (i : Nat)
deriving DecidableEq

/-- The body of run()'s per-batch loop, in source order: set the current
datetime from the batch, run the session-close check over the active
positions, let the broker settle the pending orders against the batch, then
invoke the user's onBars hook. -/
def Strategy.processBars (hooks : RunHooks) (s : Strategy) (b : Bars) : Strategy :=
  let s1 := { s with currentDateTime := some b.dateTime }
  let s2 := s1.checkExitOnSessionCloseAll b
  let s3 := hooks.brokerOnBars s2 b
  hooks.onBars s3 b

/-- run()'s loop over the feed, also recording the observable events. -/
def Strategy.runLoop (hooks : RunHooks) (i : Nat) (s : Strategy) :
    List Bars → Strategy × List RunEvent
  | [] => (s, [])
  | b :: rest =>
    let s4 := s.processBars hooks b
    let r := Strategy.runLoop hooks (i + 1) s4 rest
    (r.1,
      [RunEvent.setCurrentDateTime i, RunEvent.checkExitOnSessionCloseStep i,
        RunEvent.brokerOnBars i, RunEvent.onBarsCalled i] ++ r.2)

/-- Strategy.run: onStart, the per-batch loop, then onFinish with the last
batch — or the empty-feed error when the feed yielded no batch (`bars` is
still None after the loop). -/
def Strategy.run (hooks : RunHooks) (s : Strategy) (feed : List Bars) :
    Except String Strategy × List RunEvent :=
  let s0 := hooks.onStart s
  let r := Strategy.runLoop hooks 0 s0 feed
  match feed.getLast? with
  | some lastB =>
    (Except.ok (hooks.onFinish r.1 lastB),
      RunEvent.onStartCalled :: r.2 ++ [RunEvent.onFinishCalled (feed.length - 1)])
  | none => (Except.error "Feed was empty", [RunEvent.onStartCalled])

/-- call_and_retry_on_network_error of optimizer/worker.py, with the wrapped
call abstracted as a stream of outcomes: `outcomes k` is the result of the
k-th invocation of call_function, an error standing for socket.error.  The
result is paired with the number of calls made and the number of sleeps
performed (one randomized sleep after each guarded network failure). -/
def callRetryLoop {α : Type} (outcomes : Nat → Except Unit α) (k : Nat) :
    Nat → Except Unit α × Nat × Nat
  | 0 => (outcomes k, 1, 0)
  | n + 1 =>
    match outcomes k with
    | Except.ok v => (Except.ok v, 1, 0)
    | Except.error _ =>
      let r := callRetryLoop outcomes (k + 1) n
      (r.1, r.2.1 + 1, r.2.2 + 1)

/-- call_and_retry_on_network_error: up to retryCount guarded attempts, the
loop returning on the first success and sleeping after each network failure;
when the loop exhausts the retry budget, one final unguarded attempt is made
whose failure propagates. -/
def call_and_retry_on_network_error {α : Type} (outcomes : Nat → Except Unit α)
    (retryCount : Nat) : Except Unit α × Nat × Nat :=
  callRetryLoop outcomes 0 retryCount

/-- Equality of Except values is decidable when it is on both components. -/
instance {ε α : Type} [DecidableEq ε] [DecidableEq α] : DecidableEq (Except ε α) :=
  fun x y =>
    match x, y with
    | Except.ok a, Except.ok b =>
      if h : a = b then Decidable.isTrue (by rw [h])
      else Decidable.isFalse (by intro hc; cases hc; exact h rfl)
    | Except.error a, Except.error b =>
      if h : a = b then Decidable.isTrue (by rw [h])
      else Decidable.isFalse (by intro hc; cases hc; exact h rfl)
    | Except.ok _, Except.error _ =>
      Decidable.isFalse (fun hc => Except.noConfusion hc)
    | Except.error _, Except.ok _ =>
      Decidable.isFalse (fun hc => Except.noConfusion hc)

/-! Helper lemmas about the association-list primitives. -/

theorem lookup_append_of_none {α : Type} (l1 l2 : List (Nat × α)) (k : Nat)
    (h : l1.lookup k = none) : (l1 ++ l2).lookup k = l2.lookup k := by
  induction l1 with
  | nil => rfl
  | cons e rest ih =>
    simp only [List.lookup, List.cons_append] at h ⊢
    cases hk : (k == e.1) with
    | true => simp [hk] at h
    | false =>
      simp only [hk] at h ⊢
      exact ih h

theorem lookup_updateAssoc_self {α : Type} (l : List (Nat × α)) (k : Nat) (v : α)
    (h : (l.lookup k).isSome) : (updateAssoc l k v).lookup k = some v := by
  induction l with
  | nil => simp [List.lookup] at h
  | cons e rest ih =>
    by_cases hk : e.1 = k
    · simp [updateAssoc, hk, List.lookup]
    · have hk2 : (k == e.1) = false :=
        beq_eq_false_iff_ne.mpr (fun hc => hk hc.symm)
      simp only [List.lookup, hk2] at h
      simp only [updateAssoc, if_neg hk, List.lookup, hk2]
      exact ih h

theorem mem_deleteAssoc {α : Type} (l : List (Nat × α)) (k : Nat) (e : Nat × α)
    (h : e ∈ deleteAssoc l k) : e ∈ l ∧ e.1 ≠ k := by
  unfold deleteAssoc at h
  have h2 := List.mem_filter.mp h
  refine ⟨h2.1, ?_⟩
  have h3 := h2.2
  simp only [Bool.not_eq_eq_eq_not, Bool.not_true, beq_eq_false_iff_ne] at h3
  exact h3

/-! C2: getResult and getNetProfit fail in every entry/exit fill combination
other than (entry Filled, exit present and Filled). -/

/-- C2: for every position whose entry order resolves and whose exit order
(when present) resolves, if it is not the case that the entry order is
filled and the exit order exists and is filled, then both getResult and
getNetProfit fail with one of the two state errors rather than returning a
value. -/
theorem c2_state_errors (s : Strategy) (p : Position) (eo : Order)
    (he : s.lookupOrder p.entryOrder = some eo)
    (hx : ∀ xid, p.exitOrder = some xid → ∃ xo, s.lookupOrder xid = some xo)
    (hbad : ¬ (eo.isFilled = true ∧ ∃ xid xo, p.exitOrder = some xid ∧
      s.lookupOrder xid = some xo ∧ xo.isFilled = true)) :
    (∃ e, p.getResult s = Except.error e ∧
      (e = "Position not opened yet" ∨ e = "Position not closed yet")) ∧
    (∃ e, p.getNetProfit s = Except.error e ∧
      (e = "Position not opened yet" ∨ e = "Position not closed yet")) := by
  cases hf : eo.isFilled with
  | false =>
    exact ⟨⟨"Position not opened yet",
        by simp [Position.getResult, he, hf], Or.inl rfl⟩,
      ⟨"Position not opened yet",
        by simp [Position.getNetProfit, he, hf], Or.inl rfl⟩⟩
  | true =>
    cases hxo : p.exitOrder with
    | none =>
      exact ⟨⟨"Position not closed yet",
          by simp [Position.getResult, he, hf, hxo], Or.inr rfl⟩,
        ⟨"Position not closed yet",
          by simp [Position.getNetProfit, he, hf, hxo], Or.inr rfl⟩⟩
    | some xid =>
      obtain ⟨xo, hlo⟩ := hx xid hxo
      cases hxf : xo.isFilled with
      | true => exact absurd ⟨hf, xid, xo, hxo, hlo, hxf⟩ hbad
      | false =>
        exact ⟨⟨"Position not closed yet",
            by simp [Position.getResult, he, hf, hxo, hlo, hxf], Or.inr rfl⟩,
          ⟨"Position not closed yet",
            by simp [Position.getNetProfit, he, hf, hxo, hlo, hxf], Or.inr rfl⟩⟩

/-- Concrete input for the C2 witness: one Accepted entry order, no exit. -/
def c2SampleStrategy : Strategy :=
  { initialStrategy with
    orders := [(0, mkMarketOrder OrderAction.BUY 3 5 false false none)]
    nextOrderId := 1 }

/-- Concrete position for the C2 witness. -/
def c2SamplePosition : Position :=
  { entryOrder := 0, exitOrder := none, exitOnSessionClose := false,
    dir := Direction.long }

/-- C2 witness: a concrete position whose entry order is not filled and whose
exit order is absent fails getResult with a state error. -/
theorem c2_state_errors_witness :
    (∃ e, c2SamplePosition.getResult c2SampleStrategy = Except.error e ∧
      (e = "Position not opened yet" ∨ e = "Position not closed yet")) := by
  have h := c2_state_errors c2SampleStrategy c2SamplePosition
    (mkMarketOrder OrderAction.BUY 3 5 false false none)
    (by decide)
    (fun xid hxid => by simp [c2SamplePosition] at hxid)
    (by
      rintro ⟨h1, -⟩
      exact absurd h1 (by decide))
  exact h.1

/-! C3: the net-profit formulas of the two direction variants. -/

/-- C3: once entry and exit are both filled, getNetProfit returns the
direction-oriented price difference minus both commissions: for a long
position exit price minus entry price minus the two commissions, for a short
position entry price minus exit price minus the two commissions. -/
theorem c3_net_profit_formula (s : Strategy) (p : Position) (eo xo : Order)
    (xid : Nat) (ei xi : ExecutionInfo)
    (he : s.lookupOrder p.entryOrder = some eo)
    (hef : eo.isFilled = true)
    (hei : eo.executionInfo = some ei)
    (hxid : p.exitOrder = some xid)
    (hlo : s.lookupOrder xid = some xo)
    (hxf : xo.isFilled = true)
    (hxi : xo.executionInfo = some xi) :
    p.getNetProfit s = Except.ok
      (match p.dir with
       | Direction.long => xi.price - ei.price - ei.commission - xi.commission
       | Direction.short => ei.price - xi.price - ei.commission - xi.commission) := by
  cases hdir : p.dir with
  | long =>
    simp [Position.getNetProfit, Position.getNetProfitImpl, he, hef, hxid,
      hlo, hxf, hei, hxi, hdir]
  | short =>
    simp [Position.getNetProfit, Position.getNetProfitImpl, he, hef, hxid,
      hlo, hxf, hei, hxi, hdir]

/-- Concrete filled entry order for the C3 witness: price 100, commission 1. -/
def c3EntryOrder : Order :=
  { action := OrderAction.BUY, instrument := 3, quantity := 5,
    goodTillCanceled := false, useClosingPrice := false,
    state := OrderState.Filled,
    executionInfo := some { price := 100, commission := 1 }, gate := none }

/-- Concrete filled exit order for the C3 witness: price 110, commission 2. -/
def c3ExitOrder : Order :=
  { action := OrderAction.SELL, instrument := 3, quantity := 5,
    goodTillCanceled := false, useClosingPrice := false,
    state := OrderState.Filled,
    executionInfo := some { price := 110, commission := 2 }, gate := none }

/-- Concrete strategy state for the C3 witness. -/
def c3SampleStrategy : Strategy :=
  { initialStrategy with
    orders := [(0, c3EntryOrder), (1, c3ExitOrder)]
    nextOrderId := 2 }

/-- Concrete long position for the C3 witness. -/
def c3SamplePosition : Position :=
  { entryOrder := 0, exitOrder := some 1, exitOnSessionClose := false,
    dir := Direction.long }

/-- C3 witness: a long position entered at 100 with commission 1 and exited
at 110 with commission 2 has net profit 7. -/
theorem c3_net_profit_formula_witness :
    c3SamplePosition.getNetProfit c3SampleStrategy = Except.ok 7 := by
  have h := c3_net_profit_formula c3SampleStrategy c3SamplePosition
    c3EntryOrder c3ExitOrder 1
    { price := 100, commission := 1 } { price := 110, commission := 2 }
    (by decide) (by decide) (by decide) (by decide) (by decide) (by decide)
    (by decide)
  rw [h]
  norm_num [c3SamplePosition]

/-! C6: exitPosition is a no-op while the exit order is Filled or Accepted. -/

/-- C6: when a position's exit order exists and is Filled or Accepted,
exitPosition returns the state unchanged, so a second call in a row is also
a no-op and no duplicate exit order is produced. -/
theorem c6_exit_position_idempotent (s : Strategy) (pid : Nat) (p : Position)
    (xid : Nat) (xo : Order)
    (hp : s.positions.lookup pid = some p)
    (hx : p.exitOrder = some xid)
    (ho : s.lookupOrder xid = some xo)
    (hfa : xo.isFilled = true ∨ xo.isAccepted = true) :
    s.exitPosition pid = Except.ok s ∧
    (s.exitPosition pid).bind (fun t => t.exitPosition pid) = Except.ok s := by
  have h1 : s.exitPosition pid = Except.ok s := by
    rcases hfa with hf | ha
    · simp [Strategy.exitPosition, hp, hx, ho, hf]
    · simp [Strategy.exitPosition, hp, hx, ho, ha]
  refine ⟨h1, ?_⟩
  rw [h1]
  show s.exitPosition pid = Except.ok s
  exact h1

/-- Concrete filled entry order for the C6 witness. -/
def c6EntryOrder : Order :=
  { action := OrderAction.BUY, instrument := 3, quantity := 5,
    goodTillCanceled := false, useClosingPrice := false,
    state := OrderState.Filled,
    executionInfo := some { price := 100, commission := 0 }, gate := none }

/-- Concrete Accepted (still pending) exit order for the C6 witness. -/
def c6ExitOrder : Order :=
  { action := OrderAction.SELL, instrument := 3, quantity := 5,
    goodTillCanceled := false, useClosingPrice := false,
    state := OrderState.Accepted, executionInfo := none, gate := none }

/-- Concrete open position for the C6 witness. -/
def c6SamplePosition : Position :=
  { entryOrder := 0, exitOrder := some 1, exitOnSessionClose := false,
    dir := Direction.long }

/-- Concrete strategy state for the C6 witness: one open position whose exit
order is still Accepted. -/
def c6SampleStrategy : Strategy :=
  { orders := [(0, c6EntryOrder), (1, c6ExitOrder)]
    nextOrderId := 2
    placedOrders := [0, 1]
    positions := [(0, c6SamplePosition)]
    activePositions := [0]
    orderToPosition := [(0, 0), (1, 0)]
    currentDateTime := none }

/-- C6 witness: exitPosition on the concrete pending-exit position is a
no-op. -/
theorem c6_exit_position_idempotent_witness :
    c6SampleStrategy.exitPosition 0 = Except.ok c6SampleStrategy := by
  exact (c6_exit_position_idempotent c6SampleStrategy 0 c6SamplePosition
    1 c6ExitOrder (by decide) (by decide) (by decide)
    (Or.inr (by decide))).1

/-! C9: the retry loop of the optimizer worker. -/

theorem callRetryLoop_all_fail {α : Type} (outcomes : Nat → Except Unit α) :
    ∀ n k, (∀ j, k ≤ j → j < k + n → outcomes j = Except.error ()) →
      callRetryLoop outcomes k n = (outcomes (k + n), n + 1, n) := by
  intro n
  induction n with
  | zero => intro k _; simp [callRetryLoop]
  | succ n ih =>
    intro k h
    have hk : outcomes k = Except.error () := h k (Nat.le_refl k) (by omega)
    have hrest : ∀ j, k + 1 ≤ j → j < k + 1 + n → outcomes j = Except.error () := by
      intro j h1 h2
      exact h j (by omega) (by omega)
    simp only [callRetryLoop, hk]
    rw [ih (k + 1) hrest]
    have : k + 1 + n = k + (n + 1) := by omega
    rw [this]

theorem callRetryLoop_first_success {α : Type} (outcomes : Nat → Except Unit α) :
    ∀ n m k v, m < n → (∀ j, k ≤ j → j < k + m → outcomes j = Except.error ()) →
      outcomes (k + m) = Except.ok v →
      callRetryLoop outcomes k n = (Except.ok v, m + 1, m) := by
  intro n
  induction n with
  | zero => intro m k v hm _ _; omega
  | succ n ih =>
    intro m k v hm hfail hok
    cases m with
    | zero =>
      simp only [Nat.add_zero] at hok
      simp [callRetryLoop, hok]
    | succ m2 =>
      have hk : outcomes k = Except.error () :=
        hfail k (Nat.le_refl k) (by omega)
      have hrest : ∀ j, k + 1 ≤ j → j < k + 1 + m2 → outcomes j = Except.error () := by
        intro j h1 h2
        exact hfail j (by omega) (by omega)
      have hok2 : outcomes (k + 1 + m2) = Except.ok v := by
        have : k + 1 + m2 = k + (m2 + 1) := by omega
        rw [this]
        exact hok
      simp only [callRetryLoop, hk]
      rw [ih m2 (k + 1) v (by omega) hrest hok2]

theorem callRetryLoop_bounds {α : Type} (outcomes : Nat → Except Unit α) :
    ∀ n k, (callRetryLoop outcomes k n).2.1 ≤ n + 1 ∧
      (callRetryLoop outcomes k n).2.2 ≤ n := by
  intro n
  induction n with
  | zero => intro k; simp [callRetryLoop]
  | succ n ih =>
    intro k
    cases hk : outcomes k with
    | ok v => simp [callRetryLoop, hk]
    | error e =>
      have := ih (k + 1)
      simp only [callRetryLoop, hk]
      omega

/-- C9: with retry budget n, the helper makes at most n guarded attempts
followed by at most one unguarded attempt; a success among the first k
failures returns immediately after k sleeps; when all n guarded attempts
fail with a network error, the call is attempted exactly once more
unguarded, after n sleeps, and that final outcome (error included) is what
the caller sees. -/
theorem c9_retry_on_network_error {α : Type} (outcomes : Nat → Except Unit α)
    (n : Nat) :
    ((∀ j, j < n → outcomes j = Except.error ()) →
      call_and_retry_on_network_error outcomes n = (outcomes n, n + 1, n)) ∧
    (∀ k v, k < n → (∀ j, j < k → outcomes j = Except.error ()) →
      outcomes k = Except.ok v →
      call_and_retry_on_network_error outcomes n = (Except.ok v, k + 1, k)) ∧
    (call_and_retry_on_network_error outcomes n).2.1 ≤ n + 1 ∧
    (call_and_retry_on_network_error outcomes n).2.2 ≤ n := by
  refine ⟨?_, ?_, ?_⟩
  · intro h
    unfold call_and_retry_on_network_error
    have := callRetryLoop_all_fail outcomes n 0 (by
      intro j _ h2
      exact h j (by omega))
    simpa using this
  · intro k v hk hfail hok
    unfold call_and_retry_on_network_error
    have := callRetryLoop_first_success outcomes n k 0 v hk (by
      intro j _ h2
      exact hfail j (by omega)) (by simpa using hok)
    exact this
  · exact callRetryLoop_bounds outcomes n 0

/-- C9 witness: with budget 3 and the first two attempts failing, the third
guarded attempt succeeds after two sleeps; with every attempt failing, the
result is the final unguarded attempt after 3 sleeps and 4 calls. -/
theorem c9_retry_on_network_error_witness :
    call_and_retry_on_network_error
      (fun k => if k < 2 then Except.error () else Except.ok (7 : Nat)) 3 =
      (Except.ok 7, 3, 2) ∧
    call_and_retry_on_network_error
      (fun _ => (Except.error () : Except Unit Nat)) 3 =
      (Except.error (), 4, 3) := by
  constructor
  · exact (c9_retry_on_network_error
      (fun k => if k < 2 then Except.error () else Except.ok (7 : Nat)) 3).2.1
      2 7 (by omega) (by decide) (by decide)
  · exact (c9_retry_on_network_error
      (fun _ => (Except.error () : Except Unit Nat)) 3).1 (fun j _ => rfl)

/-! Facts about order allocation and placement, shared by several claims. -/

theorem placeOrder_fields (s : Strategy) (oid : Nat) :
    (s.placeOrder oid).positions = s.positions ∧
    (s.placeOrder oid).activePositions = s.activePositions ∧
    (s.placeOrder oid).orderToPosition = s.orderToPosition ∧
    (s.placeOrder oid).currentDateTime = s.currentDateTime := by
  unfold Strategy.placeOrder
  cases s.lookupOrder oid with
  | none => exact ⟨rfl, rfl, rfl, rfl⟩
  | some o => exact ⟨rfl, rfl, rfl, rfl⟩

theorem newPlacedOrder_fields (s : Strategy) (a : OrderAction) (i q : Nat)
    (g u : Bool) (gt : Option Nat) :
    (s.newPlacedOrder a i q g u gt).2.positions = s.positions ∧
    (s.newPlacedOrder a i q g u gt).2.activePositions = s.activePositions ∧
    (s.newPlacedOrder a i q g u gt).2.orderToPosition = s.orderToPosition ∧
    (s.newPlacedOrder a i q g u gt).2.currentDateTime = s.currentDateTime := by
  unfold Strategy.newPlacedOrder
  exact placeOrder_fields _ _

theorem newPlacedOrder_spec (s : Strategy) (a : OrderAction) (i q : Nat)
    (g u : Bool) (gt : Option Nat)
    (hfresh : s.lookupOrder s.nextOrderId = none) :
    (s.newPlacedOrder a i q g u gt).1 = s.nextOrderId ∧
    (s.newPlacedOrder a i q g u gt).2.lookupOrder s.nextOrderId =
      some { mkMarketOrder a i q g u gt with state := OrderState.Accepted } ∧
    (s.newPlacedOrder a i q g u gt).2.placedOrders =
      s.placedOrders ++ [s.nextOrderId] := by
  have happ : (s.orders ++ [(s.nextOrderId, mkMarketOrder a i q g u gt)]).lookup
      s.nextOrderId = some (mkMarketOrder a i q g u gt) := by
    rw [lookup_append_of_none _ _ _ hfresh]
    simp [List.lookup]
  unfold Strategy.newPlacedOrder Strategy.placeOrder
  simp only [Strategy.lookupOrder, Strategy.setOrder, happ]
  refine ⟨trivial, ?_, trivial⟩
  exact lookup_updateAssoc_self _ _ _ (by rw [happ]; rfl)

/-! C4: behaviour of checkExitOnSessionClose when the entry order has not
filled by the session-closing bar. -/

/-- Concrete Accepted (never filled) entry order for C4. -/
def c4EntryOrder : Order :=
  { action := OrderAction.BUY, instrument := 7, quantity := 10,
    goodTillCanceled := false, useClosingPrice := false,
    state := OrderState.Accepted, executionInfo := none, gate := none }

/-- Concrete position with auto-exit-on-session-close enabled and no exit
order for C4. -/
def c4SamplePosition : Position :=
  { entryOrder := 0, exitOrder := none, exitOnSessionClose := true,
    dir := Direction.long }

/-- Concrete strategy state for C4. -/
def c4SampleStrategy : Strategy :=
  { initialStrategy with
    orders := [(0, c4EntryOrder)]
    nextOrderId := 1
    placedOrders := [0] }

/-- Concrete batch whose bar for instrument 7 closes the session, for C4. -/
def c4SampleBars : Bars :=
  { dateTime := 1, bars := [(7, { sessionClose := true })] }

/-- C4 counterexample: with the entry order still unfilled (Accepted) on the
session-closing bar, checkExitOnSessionClose does place a session-close exit
order and the position does hold an exit order afterwards — contradicting
the claim that nothing is placed and the exit order stays absent. -/
theorem c4_counterexample :
    (c4SampleStrategy.lookupOrder 0).map Order.isFilled = some false ∧
    (c4SamplePosition.checkExitOnSessionClose c4SampleBars c4SampleStrategy).1 =
      some 1 ∧
    (c4SamplePosition.checkExitOnSessionClose c4SampleBars
      c4SampleStrategy).2.1.exitOrder = some 1 := by
  decide

/-- C4 as amended: on the session-closing bar, a position with auto-exit
enabled and no exit order places the session-close exit order regardless of
the entry order's state; the order is gated on the entry order (the
conditional wrapper, so it cannot fill before the entry does), it is placed
with the broker, and it becomes the position's exit order. -/
theorem c4_amended_conditional_exit_placed (s : Strategy) (p : Position)
    (bs : Bars) (eo : Order) (bar : Bar)
    (he : s.lookupOrder p.entryOrder = some eo)
    (hfresh : s.lookupOrder s.nextOrderId = none)
    (hflag : p.exitOnSessionClose = true)
    (hnoexit : p.exitOrder = none)
    (hbar : bs.getBar eo.instrument = some bar)
    (hsc : bar.sessionClose = true) :
    (p.checkExitOnSessionClose bs s).1 = some s.nextOrderId ∧
    (p.checkExitOnSessionClose bs s).2.1.exitOrder = some s.nextOrderId ∧
    ((p.checkExitOnSessionClose bs s).2.2.lookupOrder s.nextOrderId).map
      Order.gate = some (some p.entryOrder) ∧
    s.nextOrderId ∈ (p.checkExitOnSessionClose bs s).2.2.placedOrders := by
  have hspec := newPlacedOrder_spec s (exitAction p.dir) eo.instrument
    eo.quantity false true (some p.entryOrder) hfresh
  have hstep : p.checkExitOnSessionClose bs s =
      (some (s.newPlacedOrder (exitAction p.dir) eo.instrument eo.quantity
          false true (some p.entryOrder)).1,
        { p with exitOrder := some (s.newPlacedOrder (exitAction p.dir)
            eo.instrument eo.quantity false true (some p.entryOrder)).1 },
        (s.newPlacedOrder (exitAction p.dir) eo.instrument eo.quantity
          false true (some p.entryOrder)).2) := by
    simp [Position.checkExitOnSessionClose, Position.placeExitOnSessionCloseOrder,
      he, hflag, hnoexit, hbar, hsc]
  rw [hstep]
  refine ⟨by rw [hspec.1], by rw [hspec.1], ?_, ?_⟩
  · rw [hspec.2.1]
    rfl
  · rw [hspec.2.2]
    simp

/-- C4 amended witness: the concrete C4 scenario, where the entry order is
Accepted and unfilled. -/
theorem c4_amended_conditional_exit_placed_witness :
    (c4SamplePosition.checkExitOnSessionClose c4SampleBars c4SampleStrategy).1 =
      some 1 ∧
    ((c4SamplePosition.checkExitOnSessionClose c4SampleBars
        c4SampleStrategy).2.2.lookupOrder 1).map Order.gate = some (some 0) := by
  have h := c4_amended_conditional_exit_placed c4SampleStrategy c4SamplePosition
    c4SampleBars c4EntryOrder { sessionClose := true } (by decide) (by decide)
    (by decide) (by decide) (by decide) (by decide)
  exact ⟨h.1, h.2.2.1⟩

/-! C5: whether a non-null exit order can ever be replaced. -/

/-- Concrete Filled entry order for the C5 counterexample. -/
def c5EntryOrder : Order :=
  { action := OrderAction.BUY, instrument := 3, quantity := 5,
    goodTillCanceled := false, useClosingPrice := false,
    state := OrderState.Filled,
    executionInfo := some { price := 100, commission := 0 }, gate := none }

/-- Concrete Canceled exit order for the C5 counterexample. -/
def c5CanceledExit : Order :=
  { action := OrderAction.SELL, instrument := 3, quantity := 5,
    goodTillCanceled := false, useClosingPrice := false,
    state := OrderState.Canceled, executionInfo := none, gate := none }

/-- Concrete position whose exit order was canceled, for C5. -/
def c5SamplePosition : Position :=
  { entryOrder := 0, exitOrder := some 1, exitOnSessionClose := false,
    dir := Direction.long }

/-- Concrete strategy state for the C5 counterexample. -/
def c5SampleStrategy : Strategy :=
  { orders := [(0, c5EntryOrder), (1, c5CanceledExit)]
    nextOrderId := 2
    placedOrders := [0, 1]
    positions := [(0, c5SamplePosition)]
    activePositions := [0]
    orderToPosition := [(0, 0), (1, 0)]
    currentDateTime := none }

/-- C5 counterexample: a position whose exit order (id 1) was Canceled and
whose entry is Filled has its exit order replaced by a fresh order (id 2)
when exitPosition is called — so an exit order, once set, can be replaced. -/
theorem c5_counterexample :
    (c5SampleStrategy.positions.lookup 0).map Position.exitOrder =
      some (some 1) ∧
    (c5SampleStrategy.exitPosition 0).toOption.map
      (fun t => (t.positions.lookup 0).map Position.exitOrder) =
      some (some (some 2)) := by
  decide

/-- C5 as amended: an exit order, once set, is only ever replaced when it has
been Canceled.  While the exit order is not canceled, every successful
exitPosition call leaves it in place, checkExitOnSessionClose leaves it in
place, and a direct close hits the fatal assertion instead of replacing it. -/
theorem c5_amended_exit_order_stable (s : Strategy) (pid : Nat) (p : Position)
    (xid : Nat) (xo : Order)
    (hp : s.positions.lookup pid = some p)
    (hx : p.exitOrder = some xid)
    (ho : s.lookupOrder xid = some xo)
    (hnc : xo.isCanceled = false) :
    (∀ t, s.exitPosition pid = Except.ok t →
      (t.positions.lookup pid).map Position.exitOrder = some (some xid)) ∧
    (∀ bs, (p.checkExitOnSessionClose bs s).2.1.exitOrder = some xid) ∧
    p.close s = Except.error "AssertionError" := by
  have h3 : p.close s = Except.error "AssertionError" := by
    simp [Position.close, Position.closeImpl, hx, ho, hnc]
  refine ⟨?_, ?_, h3⟩
  · intro t ht
    simp only [Strategy.exitPosition, hp, hx, ho] at ht
    cases hb : (xo.isFilled || xo.isAccepted) with
    | true =>
      rw [hb] at ht
      simp at ht
      rw [← ht, hp]
      simp [hx]
    | false =>
      rw [hb] at ht
      simp only [Bool.false_eq_true, if_false] at ht
      unfold Strategy.exitPositionProceed at ht
      cases hE : s.lookupOrder p.entryOrder with
      | none => simp [hE] at ht
      | some eo =>
        simp only [hE] at ht
        cases hf : eo.isFilled with
        | true => simp [hf, h3] at ht
        | false =>
          simp only [hf, Bool.false_eq_true, if_false] at ht
          simp at ht
          rw [← ht]
          show ((s.setOrder p.entryOrder eo.cancel).positions.lookup pid).map
            Position.exitOrder = some (some xid)
          have : (s.setOrder p.entryOrder eo.cancel).positions = s.positions := rfl
          rw [this, hp]
          simp [hx]
  · intro bs
    cases hE : s.lookupOrder p.entryOrder with
    | none => simp [Position.checkExitOnSessionClose, hE, hx]
    | some eo => simp [Position.checkExitOnSessionClose, hE, hx]

/-- Concrete Filled exit order for the C5 amended witness. -/
def c5WitnessExit : Order :=
  { action := OrderAction.SELL, instrument := 3, quantity := 5,
    goodTillCanceled := false, useClosingPrice := false,
    state := OrderState.Filled,
    executionInfo := some { price := 110, commission := 0 }, gate := none }

/-- Concrete position for the C5 amended witness. -/
def c5WitnessPosition : Position :=
  { entryOrder := 0, exitOrder := some 1, exitOnSessionClose := false,
    dir := Direction.long }

/-- Concrete strategy state for the C5 amended witness: the exit order is
Filled, hence not canceled. -/
def c5WitnessStrategy : Strategy :=
  { orders := [(0, c5EntryOrder), (1, c5WitnessExit)]
    nextOrderId := 2
    placedOrders := [0, 1]
    positions := [(0, c5WitnessPosition)]
    activePositions := [0]
    orderToPosition := [(0, 0), (1, 0)]
    currentDateTime := none }

/-- C5 amended witness: with a Filled (not canceled) exit order, exitPosition
leaves the exit order in place. -/
theorem c5_amended_exit_order_stable_witness :
    (c5WitnessStrategy.positions.lookup 0).map Position.exitOrder =
      some (some 1) := by
  exact (c5_amended_exit_order_stable c5WitnessStrategy 0 c5WitnessPosition 1
    c5WitnessExit (by decide) (by decide) (by decide) (by decide)).1
    c5WitnessStrategy (by decide)

/-! C7: the order-to-position index never holds an order of a retired
position after a notification dispatch. -/

/-- Whether an index entry maps an order id to a position that currently
owns it as its entry or exit order. -/
def entryOrExitB (s : Strategy) (e : Nat × Nat) : Bool :=
  match s.positions.lookup e.2 with
  | none => false
  | some p => (e.1 == p.entryOrder) || (p.exitOrder == some e.1)

/-- Representation invariant of the orchestrator registries: every entry of
the order-to-position index points at an active position and maps an order
that is that position's current entry or exit order. -/
def IndexInv (s : Strategy) : Prop :=
  ∀ e ∈ s.orderToPosition, e.2 ∈ s.activePositions ∧ entryOrExitB s e = true

theorem entryOrExitB_cases (s : Strategy) (e : Nat × Nat) (p : Position)
    (hp : s.positions.lookup e.2 = some p) (hB : entryOrExitB s e = true) :
    e.1 = p.entryOrder ∨ p.exitOrder = some e.1 := by
  unfold entryOrExitB at hB
  simp only [hp] at hB
  simpa using hB

theorem unregister_index_active (s : Strategy) (pid : Nat) (s1 : Strategy)
    (hinv : IndexInv s)
    (h : s.unregisterActivePosition pid = Except.ok s1) :
    ∀ e ∈ s1.orderToPosition, e.2 ∈ s1.activePositions := by
  unfold Strategy.unregisterActivePosition at h
  by_cases hmem : pid ∈ s.activePositions
  · rw [if_pos hmem] at h
    cases hp : s.positions.lookup pid with
    | none => simp [hp] at h
    | some p =>
      simp only [hp] at h
      simp only [Except.ok.injEq] at h
      subst h
      intro e he
      cases hxe : p.exitOrder with
      | none =>
        simp only [hxe] at he
        obtain ⟨heIdx, hne⟩ := mem_deleteAssoc _ _ _ he
        obtain ⟨hact, hB⟩ := hinv e heIdx
        by_cases hq : e.2 = pid
        · rcases entryOrExitB_cases s e p (by rw [hq, hp]) hB with h1 | h2
          · exact absurd h1 hne
          · rw [hxe] at h2
            exact absurd h2 (by simp)
        · show e.2 ∈ s.activePositions.erase pid
          exact (List.mem_erase_of_ne hq).mpr hact
      | some xid =>
        simp only [hxe] at he
        obtain ⟨he2, hne2⟩ := mem_deleteAssoc _ _ _ he
        obtain ⟨heIdx, hne1⟩ := mem_deleteAssoc _ _ _ he2
        obtain ⟨hact, hB⟩ := hinv e heIdx
        by_cases hq : e.2 = pid
        · rcases entryOrExitB_cases s e p (by rw [hq, hp]) hB with h1 | h2
          · exact absurd h1 hne1
          · rw [hxe] at h2
            have : xid = e.1 := by
              have := h2
              simp at this
              exact this
            exact absurd this.symm hne2
        · show e.2 ∈ s.activePositions.erase pid
          exact (List.mem_erase_of_ne hq).mpr hact
  · rw [if_neg hmem] at h
    exact absurd h (by simp)

/-- C7: given the registry invariant, every successful order-executed
notification dispatch leaves no index entry whose position has been retired
from the active set; and when the notified order is the position's exit
order in a terminal state, the dispatch unregisters the position before
invoking the onExitOk or onExitCanceled hook. -/
theorem c7_dispatch_cleans_index (s : Strategy) (oid : Nat) (s1 : Strategy)
    (acts : List DispatchStep)
    (hinv : IndexInv s)
    (h : s.onOrderUpdate oid = Except.ok (s1, acts)) :
    (∀ e ∈ s1.orderToPosition, e.2 ∈ s1.activePositions) ∧
    (∀ pid p o, s.orderToPosition.lookup oid = some pid →
      s.positions.lookup pid = some p → s.lookupOrder oid = some o →
      p.entryOrder ≠ oid → p.exitOrder = some oid →
      (o.isFilled = true →
        acts = [DispatchStep.unregistered pid, DispatchStep.onExitOk pid]) ∧
      (o.isFilled = false → o.isCanceled = true →
        acts = [DispatchStep.unregistered pid,
          DispatchStep.onExitCanceled pid])) := by
  unfold Strategy.onOrderUpdate at h
  cases hpid : s.orderToPosition.lookup oid with
  | none => simp [hpid] at h
  | some pid =>
    simp only [hpid] at h
    cases hp : s.positions.lookup pid with
    | none => simp [hp] at h
    | some p =>
      simp only [hp] at h
      cases hord : s.lookupOrder oid with
      | none => simp [hord] at h
      | some o =>
        simp only [hord] at h
        by_cases hent : p.entryOrder = oid
        · rw [if_pos hent] at h
          constructor
          · cases hf : o.isFilled with
            | true =>
              simp only [hf, if_true] at h
              simp only [Except.ok.injEq, Prod.mk.injEq] at h
              obtain ⟨hs, -⟩ := h
              subst hs
              exact fun e he => (hinv e he).1
            | false =>
              simp only [hf, Bool.false_eq_true, if_false] at h
              cases hc : o.isCanceled with
              | true =>
                simp only [hc, if_true] at h
                cases hu : s.unregisterActivePosition pid with
                | error e2 => simp [hu] at h
                | ok s2 =>
                  simp only [hu] at h
                  simp only [Except.ok.injEq, Prod.mk.injEq] at h
                  obtain ⟨hs, -⟩ := h
                  subst hs
                  exact unregister_index_active s pid _ hinv hu
              | false =>
                simp only [hc, Bool.false_eq_true, if_false] at h
                simp only [Except.ok.injEq, Prod.mk.injEq] at h
                obtain ⟨hs, -⟩ := h
                subst hs
                exact fun e he => (hinv e he).1
          · intro pid2 p2 o2 hpid2 hp2 hord2 hne2 _
            have hpideq : pid2 = pid := (Option.some.inj hpid2).symm
            subst hpideq
            rw [hp] at hp2
            have hpeq : p2 = p := (Option.some.inj hp2).symm
            subst hpeq
            exact absurd hent hne2
        · rw [if_neg hent] at h
          by_cases hxe : p.exitOrder = some oid
          · rw [if_pos hxe] at h
            cases hf : o.isFilled with
            | true =>
              simp only [hf, if_true] at h
              cases hu : s.unregisterActivePosition pid with
              | error e2 => simp [hu] at h
              | ok s2 =>
                simp only [hu] at h
                simp only [Except.ok.injEq, Prod.mk.injEq] at h
                obtain ⟨hs, hacts⟩ := h
                subst hs
                constructor
                · exact unregister_index_active s pid _ hinv hu
                · intro pid2 p2 o2 hpid2 hp2 hord2 hne2 hxe2
                  have hpideq : pid2 = pid := (Option.some.inj hpid2).symm
                  subst hpideq
                  have hoeq : o2 = o := (Option.some.inj hord2).symm
                  subst hoeq
                  exact ⟨fun _ => hacts.symm,
                    fun hff _ => absurd hf (by rw [hff]; exact Bool.false_ne_true)⟩
            | false =>
              simp only [hf, Bool.false_eq_true, if_false] at h
              cases hc : o.isCanceled with
              | true =>
                simp only [hc, if_true] at h
                cases hu : s.unregisterActivePosition pid with
                | error e2 => simp [hu] at h
                | ok s2 =>
                  simp only [hu] at h
                  simp only [Except.ok.injEq, Prod.mk.injEq] at h
                  obtain ⟨hs, hacts⟩ := h
                  subst hs
                  constructor
                  · exact unregister_index_active s pid _ hinv hu
                  · intro pid2 p2 o2 hpid2 hp2 hord2 hne2 hxe2
                    have hpideq : pid2 = pid := (Option.some.inj hpid2).symm
                    subst hpideq
                    have hoeq : o2 = o := (Option.some.inj hord2).symm
                    subst hoeq
                    exact ⟨fun hft => absurd hft (by rw [hf]; exact Bool.false_ne_true),
                      fun _ _ => hacts.symm⟩
              | false =>
                simp only [hc, Bool.false_eq_true, if_false] at h
                simp only [Except.ok.injEq, Prod.mk.injEq] at h
                obtain ⟨hs, -⟩ := h
                subst hs
                constructor
                · exact fun e he => (hinv e he).1
                · intro pid2 p2 o2 hpid2 hp2 hord2 hne2 hxe2
                  have hoeq : o2 = o := (Option.some.inj hord2).symm
                  subst hoeq
                  exact ⟨fun hft => absurd hft (by rw [hf]; exact Bool.false_ne_true),
                    fun _ hct => absurd hct (by rw [hc]; exact Bool.false_ne_true)⟩
          · rw [if_neg hxe] at h
            exact absurd h (by simp)

/-- Concrete filled entry order for the C7 witness. -/
def c7EntryOrder : Order :=
  { action := OrderAction.BUY, instrument := 3, quantity := 5,
    goodTillCanceled := false, useClosingPrice := false,
    state := OrderState.Filled,
    executionInfo := some { price := 100, commission := 0 }, gate := none }

/-- Concrete filled exit order for the C7 witness. -/
def c7ExitOrder : Order :=
  { action := OrderAction.SELL, instrument := 3, quantity := 5,
    goodTillCanceled := false, useClosingPrice := false,
    state := OrderState.Filled,
    executionInfo := some { price := 110, commission := 0 }, gate := none }

/-- Concrete position for the C7 witness. -/
def c7SamplePosition : Position :=
  { entryOrder := 0, exitOrder := some 1, exitOnSessionClose := false,
    dir := Direction.long }

/-- Concrete strategy state for the C7 witness, before the dispatch of the
filled exit order. -/
def c7SampleStrategy : Strategy :=
  { orders := [(0, c7EntryOrder), (1, c7ExitOrder)]
    nextOrderId := 2
    placedOrders := [0, 1]
    positions := [(0, c7SamplePosition)]
    activePositions := [0]
    orderToPosition := [(0, 0), (1, 0)]
    currentDateTime := none }

/-- Concrete state after dispatching the filled exit order for C7: the
position is retired and both of its orders leave the index. -/
def c7SampleAfter : Strategy :=
  { orders := [(0, c7EntryOrder), (1, c7ExitOrder)]
    nextOrderId := 2
    placedOrders := [0, 1]
    positions := [(0, c7SamplePosition)]
    activePositions := []
    orderToPosition := []
    currentDateTime := none }

/-- C7 witness: the concrete dispatch of a filled exit order retires the
position before the onExitOk hook and leaves a clean index. -/
theorem c7_dispatch_cleans_index_witness :
    (∀ e ∈ c7SampleAfter.orderToPosition, e.2 ∈ c7SampleAfter.activePositions) ∧
    c7SampleStrategy.onOrderUpdate 1 = Except.ok (c7SampleAfter,
      [DispatchStep.unregistered 0, DispatchStep.onExitOk 0]) := by
  have h := c7_dispatch_cleans_index c7SampleStrategy 1 c7SampleAfter
    [DispatchStep.unregistered 0, DispatchStep.onExitOk 0]
    (by unfold IndexInv; decide) (by decide)
  exact ⟨h.1, by decide⟩

/-! Event bookkeeping for the run() loop (claims C1, C8, C10). -/

/-- Number of occurrences of an event in a trace. -/
def occCount (e : RunEvent) : List RunEvent → Nat
  | [] => 0
  | x :: xs => (if x = e then 1 else 0) + occCount e xs

theorem occCount_append (e : RunEvent) (l1 l2 : List RunEvent) :
    occCount e (l1 ++ l2) = occCount e l1 + occCount e l2 := by
  induction l1 with
  | nil => simp [occCount]
  | cons x xs ih => simp [occCount, ih, Nat.add_assoc]

/-- The four per-batch events of run(), in source order. -/
def batchEvents (i : Nat) : List RunEvent :=
  [RunEvent.setCurrentDateTime i, RunEvent.checkExitOnSessionCloseStep i,
    RunEvent.brokerOnBars i, RunEvent.onBarsCalled i]

/-- The events of n consecutive batches starting at index i. -/
def feedEvents (i : Nat) : Nat → List RunEvent
  | 0 => []
  | n + 1 => batchEvents i ++ feedEvents (i + 1) n

theorem runLoop_events (hooks : RunHooks) :
    ∀ (feed : List Bars) (i : Nat) (s : Strategy),
      (Strategy.runLoop hooks i s feed).2 = feedEvents i feed.length := by
  intro feed
  induction feed with
  | nil => intro i s; rfl
  | cons b rest ih =>
    intro i s
    simp only [Strategy.runLoop, List.length_cons, feedEvents, batchEvents, ih]

theorem occ_feed_setTime : ∀ (n i j : Nat),
    occCount (RunEvent.setCurrentDateTime j) (feedEvents i n) =
      if i ≤ j ∧ j < i + n then 1 else 0 := by
  intro n
  induction n with
  | zero =>
    intro i j
    have hc : ¬ (i ≤ j ∧ j < i) := by omega
    simp [feedEvents, occCount, hc]
  | succ n ih =>
    intro i j
    rw [show feedEvents i (n + 1) = batchEvents i ++ feedEvents (i + 1) n from rfl]
    rw [occCount_append, ih]
    simp only [batchEvents, occCount]
    simp only [RunEvent.setCurrentDateTime.injEq, reduceCtorEq, if_false]
    split_ifs <;> omega

theorem occ_feed_checkExit : ∀ (n i j : Nat),
    occCount (RunEvent.checkExitOnSessionCloseStep j) (feedEvents i n) =
      if i ≤ j ∧ j < i + n then 1 else 0 := by
  intro n
  induction n with
  | zero =>
    intro i j
    have hc : ¬ (i ≤ j ∧ j < i) := by omega
    simp [feedEvents, occCount, hc]
  | succ n ih =>
    intro i j
    rw [show feedEvents i (n + 1) = batchEvents i ++ feedEvents (i + 1) n from rfl]
    rw [occCount_append, ih]
    simp only [batchEvents, occCount]
    simp only [RunEvent.checkExitOnSessionCloseStep.injEq, reduceCtorEq, if_false]
    split_ifs <;> omega

theorem occ_feed_broker : ∀ (n i j : Nat),
    occCount (RunEvent.brokerOnBars j) (feedEvents i n) =
      if i ≤ j ∧ j < i + n then 1 else 0 := by
  intro n
  induction n with
  | zero =>
    intro i j
    have hc : ¬ (i ≤ j ∧ j < i) := by omega
    simp [feedEvents, occCount, hc]
  | succ n ih =>
    intro i j
    rw [show feedEvents i (n + 1) = batchEvents i ++ feedEvents (i + 1) n from rfl]
    rw [occCount_append, ih]
    simp only [batchEvents, occCount]
    simp only [RunEvent.brokerOnBars.injEq, reduceCtorEq, if_false]
    split_ifs <;> omega

theorem occ_feed_onBars : ∀ (n i j : Nat),
    occCount (RunEvent.onBarsCalled j) (feedEvents i n) =
      if i ≤ j ∧ j < i + n then 1 else 0 := by
  intro n
  induction n with
  | zero =>
    intro i j
    have hc : ¬ (i ≤ j ∧ j < i) := by omega
    simp [feedEvents, occCount, hc]
  | succ n ih =>
    intro i j
    rw [show feedEvents i (n + 1) = batchEvents i ++ feedEvents (i + 1) n from rfl]
    rw [occCount_append, ih]
    simp only [batchEvents, occCount]
    simp only [RunEvent.onBarsCalled.injEq, reduceCtorEq, if_false]
    split_ifs <;> omega

theorem occ_feed_finish : ∀ (n i k : Nat),
    occCount (RunEvent.onFinishCalled k) (feedEvents i n) = 0 := by
  intro n
  induction n with
  | zero => intro i k; rfl
  | succ n ih =>
    intro i k
    simp [feedEvents, occCount_append, batchEvents, occCount, ih]

theorem batchEvents_sublist : ∀ (n i j : Nat), i ≤ j → j < i + n →
    (batchEvents j).Sublist (feedEvents i n) := by
  intro n
  induction n with
  | zero => intro i j h1 h2; omega
  | succ n ih =>
    intro i j h1 h2
    rcases Nat.eq_or_lt_of_le h1 with heq | hlt
    · subst heq
      exact List.sublist_append_left _ _
    · have hrec := ih (i + 1) j hlt (by omega)
      exact hrec.trans (List.sublist_append_right _ _)

theorem run_snd_nonempty (hooks : RunHooks) (s : Strategy) (feed : List Bars)
    (hne : feed ≠ []) :
    (Strategy.run hooks s feed).2 = RunEvent.onStartCalled ::
      (feedEvents 0 feed.length ++
        [RunEvent.onFinishCalled (feed.length - 1)]) := by
  unfold Strategy.run
  cases hg : feed.getLast? with
  | none => exact absurd (List.getLast?_eq_none_iff.mp hg) hne
  | some b => simp [runLoop_events]

theorem run_fst_nonempty (hooks : RunHooks) (s : Strategy) (feed : List Bars)
    (hne : feed ≠ []) :
    ∃ t, (Strategy.run hooks s feed).1 = Except.ok t := by
  unfold Strategy.run
  cases hg : feed.getLast? with
  | none => exact absurd (List.getLast?_eq_none_iff.mp hg) hne
  | some b => exact ⟨_, rfl⟩

/-- C1: for each batch of the feed, the run() trace contains exactly one
current-datetime update, one session-close check pass, one broker
settlement, and one onBars invocation for that batch, and they occur as a
subsequence in exactly this order — in particular onBars for a batch never
precedes the broker settlement of the same batch. -/
theorem c1_run_batch_order (hooks : RunHooks) (s : Strategy)
    (feed : List Bars) (i : Nat) (hi : i < feed.length) :
    occCount (RunEvent.setCurrentDateTime i) (Strategy.run hooks s feed).2 = 1 ∧
    occCount (RunEvent.checkExitOnSessionCloseStep i)
      (Strategy.run hooks s feed).2 = 1 ∧
    occCount (RunEvent.brokerOnBars i) (Strategy.run hooks s feed).2 = 1 ∧
    occCount (RunEvent.onBarsCalled i) (Strategy.run hooks s feed).2 = 1 ∧
    (batchEvents i).Sublist (Strategy.run hooks s feed).2 := by
  have hne : feed ≠ [] := by
    intro hh
    rw [hh] at hi
    simp at hi
  rw [run_snd_nonempty hooks s feed hne]
  have hc : 0 ≤ i ∧ i < 0 + feed.length := ⟨Nat.zero_le i, by omega⟩
  have h1 := occ_feed_setTime feed.length 0 i
  have h2 := occ_feed_checkExit feed.length 0 i
  have h3 := occ_feed_broker feed.length 0 i
  have h4 := occ_feed_onBars feed.length 0 i
  rw [if_pos hc] at h1 h2 h3 h4
  refine ⟨?_, ?_, ?_, ?_, ?_⟩
  · simp [occCount, occCount_append, h1]
  · simp [occCount, occCount_append, h2]
  · simp [occCount, occCount_append, h3]
  · simp [occCount, occCount_append, h4]
  · have hsub : (batchEvents i).Sublist (feedEvents 0 feed.length) :=
      batchEvents_sublist feed.length 0 i (Nat.zero_le i) (by omega)
    exact (hsub.trans (List.sublist_append_left _ _)).cons _

/-- C1 witness: a one-batch feed with identity hooks. -/
theorem c1_run_batch_order_witness :
    occCount (RunEvent.brokerOnBars 0)
      (Strategy.run
        { onStart := fun t => t, brokerOnBars := fun t _ => t,
          onBars := fun t _ => t, onFinish := fun t _ => t }
        initialStrategy [{ dateTime := 1, bars := [] }]).2 = 1 := by
  exact (c1_run_batch_order
    { onStart := fun t => t, brokerOnBars := fun t _ => t,
      onBars := fun t _ => t, onFinish := fun t _ => t }
    initialStrategy [{ dateTime := 1, bars := [] }] 0 (by decide)).2.2.1

/-- C8: a feed with zero batches makes run() fail with the empty-feed error
and onFinish is never invoked; a nonempty feed makes run() succeed,
invoking onFinish exactly once, with the last batch, as the final event
after all per-batch processing. -/
theorem c8_empty_feed_and_finish (hooks : RunHooks) (s : Strategy)
    (feed : List Bars) :
    (feed = [] →
      (Strategy.run hooks s feed).1 = Except.error "Feed was empty" ∧
      ∀ k, occCount (RunEvent.onFinishCalled k) (Strategy.run hooks s feed).2 = 0) ∧
    (feed ≠ [] →
      (∃ t, (Strategy.run hooks s feed).1 = Except.ok t) ∧
      (Strategy.run hooks s feed).2.getLast? =
        some (RunEvent.onFinishCalled (feed.length - 1)) ∧
      ∀ k, occCount (RunEvent.onFinishCalled k) (Strategy.run hooks s feed).2 =
        if k = feed.length - 1 then 1 else 0) := by
  constructor
  · intro hfe
    subst hfe
    exact ⟨rfl, fun k => by simp [Strategy.run, Strategy.runLoop, occCount]⟩
  · intro hne
    refine ⟨run_fst_nonempty hooks s feed hne, ?_, ?_⟩
    · rw [run_snd_nonempty hooks s feed hne]
      rw [show RunEvent.onStartCalled ::
        (feedEvents 0 feed.length ++ [RunEvent.onFinishCalled (feed.length - 1)]) =
        (RunEvent.onStartCalled :: feedEvents 0 feed.length) ++
          [RunEvent.onFinishCalled (feed.length - 1)] from rfl]
      exact List.getLast?_concat _
    · intro k
      rw [run_snd_nonempty hooks s feed hne]
      by_cases hk : k = feed.length - 1
      · subst hk
        simp [occCount, occCount_append, occ_feed_finish]
      · have hne2 : RunEvent.onFinishCalled (feed.length - 1) ≠
            RunEvent.onFinishCalled k := by
          intro hcc
          exact hk (RunEvent.onFinishCalled.inj hcc).symm
        simp [occCount, occCount_append, occ_feed_finish, hne2, hk]

/-- C8 witness: the empty feed errors with no finish event, and a one-batch
feed finishes exactly once with batch 0. -/
theorem c8_empty_feed_and_finish_witness :
    (Strategy.run
      { onStart := fun t => t, brokerOnBars := fun t _ => t,
        onBars := fun t _ => t, onFinish := fun t _ => t }
      initialStrategy []).1 = Except.error "Feed was empty" ∧
    occCount (RunEvent.onFinishCalled 0)
      (Strategy.run
        { onStart := fun t => t, brokerOnBars := fun t _ => t,
          onBars := fun t _ => t, onFinish := fun t _ => t }
        initialStrategy [{ dateTime := 1, bars := [] }]).2 = 1 := by
  constructor
  · exact ((c8_empty_feed_and_finish
      { onStart := fun t => t, brokerOnBars := fun t _ => t,
        onBars := fun t _ => t, onFinish := fun t _ => t }
      initialStrategy []).1 rfl).1
  · have h := ((c8_empty_feed_and_finish
      { onStart := fun t => t, brokerOnBars := fun t _ => t,
        onBars := fun t _ => t, onFinish := fun t _ => t }
      initialStrategy [{ dateTime := 1, bars := [] }]).2 (by simp)).2.2 0
    simpa using h

/-! C10: the current simulation datetime. -/

theorem placeExitOnSessionCloseOrder_cdt (p : Position) (s : Strategy) :
    ∀ r, p.placeExitOnSessionCloseOrder s = some r →
      r.2.2.currentDateTime = s.currentDateTime := by
  unfold Position.placeExitOnSessionCloseOrder
  intro r hr
  by_cases hx : p.exitOrder.isSome
  · rw [if_pos hx] at hr
    exact absurd hr (by simp)
  · rw [if_neg hx] at hr
    cases hE : s.lookupOrder p.entryOrder with
    | none => simp [hE] at hr
    | some eo =>
      simp only [hE, Option.some.injEq] at hr
      rw [← hr]
      exact (newPlacedOrder_fields s (exitAction p.dir) eo.instrument
        eo.quantity false true (some p.entryOrder)).2.2.2

theorem checkExitOnSessionClose_cdt (p : Position) (bs : Bars) (s : Strategy) :
    (p.checkExitOnSessionClose bs s).2.2.currentDateTime = s.currentDateTime := by
  unfold Position.checkExitOnSessionClose
  split
  · rfl
  · split
    · split
      · rfl
      · split
        · split
          · next oid p1 s1 hpl =>
            exact placeExitOnSessionCloseOrder_cdt p s (oid, p1, s1) hpl
          · rfl
        · rfl
    · rfl

theorem checkExitLoop_cdt (bs : Bars) :
    ∀ (l : List Nat) (s : Strategy),
      (Strategy.checkExitOnSessionCloseLoop bs s l).currentDateTime =
        s.currentDateTime := by
  intro l
  induction l with
  | nil => intro s; rfl
  | cons pid rest ih =>
    intro s
    unfold Strategy.checkExitOnSessionCloseLoop
    cases hp : s.positions.lookup pid with
    | none =>
      simp only [hp]
      exact ih s
    | some p =>
      simp only [hp]
      cases ho : (p.checkExitOnSessionClose bs s).1 with
      | none =>
        simp only [ho]
        rw [ih]
        exact checkExitOnSessionClose_cdt p bs s
      | some oid =>
        simp only [ho]
        rw [ih]
        exact checkExitOnSessionClose_cdt p bs s

theorem checkExitAll_cdt (s : Strategy) (bs : Bars) :
    (s.checkExitOnSessionCloseAll bs).currentDateTime = s.currentDateTime :=
  checkExitLoop_cdt bs s.activePositions s

/-- C10: after construction (and after the onStart hook, which cannot write
the private current-datetime field), getCurrentDateTime is the defined empty
value none; and the per-batch loop body sets it to the processed batch's
timestamp, so after each batch getCurrentDateTime returns that batch's
timestamp. -/
theorem c10_current_datetime (hooks : RunHooks) (s : Strategy) (b : Bars)
    (hstart : ∀ t, (hooks.onStart t).currentDateTime = t.currentDateTime)
    (hbroker : ∀ t bb, (hooks.brokerOnBars t bb).currentDateTime =
      t.currentDateTime)
    (huser : ∀ t bb, (hooks.onBars t bb).currentDateTime = t.currentDateTime) :
    initialStrategy.getCurrentDateTime = none ∧
    (hooks.onStart initialStrategy).getCurrentDateTime = none ∧
    (Strategy.processBars hooks s b).getCurrentDateTime = some b.dateTime := by
  refine ⟨rfl, ?_, ?_⟩
  · unfold Strategy.getCurrentDateTime
    rw [hstart]
    rfl
  · unfold Strategy.getCurrentDateTime Strategy.processBars
    rw [huser, hbroker, checkExitAll_cdt]

/-- C10 witness: identity hooks and a concrete batch with timestamp 5. -/
theorem c10_current_datetime_witness :
    initialStrategy.getCurrentDateTime = none ∧
    (Strategy.processBars
      { onStart := fun t => t, brokerOnBars := fun t _ => t,
        onBars := fun t _ => t, onFinish := fun t _ => t }
      initialStrategy { dateTime := 5, bars := [] }).getCurrentDateTime =
      some 5 := by
  have h := c10_current_datetime
    { onStart := fun t => t, brokerOnBars := fun t _ => t,
      onBars := fun t _ => t, onFinish := fun t _ => t }
    initialStrategy { dateTime := 5, bars := [] }
    (fun t => rfl) (fun t bb => rfl) (fun t bb => rfl)
  exact ⟨h.1, h.2.2⟩

end PyAlgoTrade
